/-
Verification of the intraday bar validation and ingestion pipeline.

The embedding models wall-clock datetimes as microsecond counts since an
epoch that falls on a midnight hour boundary.  All arithmetic performed by
the code (`replace(minute=0, second=0, microsecond=0)`, `timedelta`
addition and subtraction, comparisons between datetimes that carry the
same fixed zone) is wall-clock arithmetic, which this representation
captures exactly.
-/
import Mathlib

namespace Ingest

/-- Microseconds per second, mirroring the resolution of the host
datetime type. -/
def usPerSec : Nat := 1000000

/-- Microseconds per minute (60 seconds). -/
def usPerMin : Nat := 60000000

/-- Microseconds per hour (60 minutes). -/
def usPerHour : Nat := 3600000000

/-- The minute component of a datetime (`now.minute`). -/
def dtMinute (t : Nat) : Nat := (t / usPerMin) % 60

/-- The second component of a datetime (`now.second`). -/
def dtSecond (t : Nat) : Nat := (t / usPerSec) % 60

/-- The microsecond component of a datetime (`now.microsecond`). -/
def dtMicro (t : Nat) : Nat := t % usPerSec

/-- Embedding of `time_utils.current_hour`:
`now.replace(minute=0, second=0, microsecond=0)`. -/
def current_hour (t : Nat) : Nat :=
  t - usPerMin * dtMinute t - usPerSec * dtSecond t - dtMicro t

/-- Embedding of `now.replace(second=0, microsecond=0)`. -/
def truncToMinute (t : Nat) : Nat :=
  t - usPerSec * dtSecond t - dtMicro t

/-- Embedding of `time_utils.align_to_5_minute`: zero the seconds and
microseconds, then subtract `minutes = ts.minute % 5`. -/
def align_to_5_minute (t : Nat) : Nat :=
  let ts := truncToMinute t
  ts - usPerMin * (dtMinute ts % 5)

/-- Embedding of `time_utils.compute_window`.  `start` is the top of the
current hour; `end` is the current time floored to a 5-minute boundary,
capped at `start + window_min` minutes and forced up to `start + 5`
minutes when it would otherwise fall below that. -/
def compute_window (now_local : Nat) (window_min : Nat) : Nat × Nat :=
  let start := current_hour now_local
  let e0 := truncToMinute now_local
  let e1 := e0 - usPerMin * (dtMinute e0 % 5)
  let e2 := min e1 (start + window_min * usPerMin)
  let e3 := if e2 < start + 5 * usPerMin then start + 5 * usPerMin else e2
  (start, e3)

/-- A raw JSON scalar as the upstream feed delivers it: null, boolean,
number (int or float), or string. -/
inductive Value
  | vnull
  | vbool (b : Bool)
  | vnum (q : Rat)
  | vstr (s : String)
deriving DecidableEq

/-- A raw API record: a field map with string keys, as decoded from the
JSON response. -/
abbrev RawRow := List (String × Value)

/-- Embedding of `row.get(field)`: `none` when the key is absent. -/
def rowGet (row : RawRow) (k : String) : Option Value :=
  (row.find? (fun p => p.1 == k)).map (fun p => p.2)

/-- Whitespace stripping of `str.strip()`, on the character list. -/
def stripChars (cs : List Char) : List Char :=
  ((cs.dropWhile Char.isWhitespace).reverse.dropWhile Char.isWhitespace).reverse

/-- Embedding of `data_validation.is_empty`: the value is `None` (which
also covers an absent key, since `row.get` returns `None` there) or a
string whose `strip()` is empty. -/
def is_empty : Option Value → Bool
  | none => true
  | some .vnull => true
  | some (.vstr s) => (stripChars s.toList).isEmpty
  | some _ => false

/-- The fixed expected field set `DATA_FIELDS`. -/
def DATA_FIELDS : List String := ["date", "open", "high", "low", "close", "volume"]

/-- The required numeric field set `REQUIRED_NUMERIC_FIELDS`. -/
def REQUIRED_NUMERIC_FIELDS : List String := ["open", "high", "low", "volume"]

/-- Embedding of `data_validation.analyze_row`: the missing/empty subset
of the expected fields, and whether every expected field is empty. -/
def analyze_row (row : RawRow) (fields : List String) : List String × Bool :=
  let missing_fields := fields.filter (fun f => is_empty (rowGet row f))
  (missing_fields, missing_fields.length == fields.length)

/-- Numeric value of a digit string. -/
def digitsToNat (cs : List Char) : Nat :=
  cs.foldl (fun a c => 10 * a + (c.toNat - 48)) 0

/-- Model of Python `float(s)` on strings, restricted to the decimal
forms `[+|-]digits`, `[+|-]digits.digits`, `[+|-].digits` that occur in
this feed; exponent notation and the `inf`/`nan` words are outside the
data handled here.  Returns `none` where `float` raises `ValueError`. -/
def pyFloat (s : String) : Option Rat :=
  let t := stripChars s.toList
  let sgn : Int := match t with
    | '-' :: _ => -1
    | _ => 1
  let t2 := match t with
    | '-' :: r => r
    | '+' :: r => r
    | _ => t
  match t2.span Char.isDigit with
  | (ip, []) =>
    if ip.isEmpty then none else some ((sgn * digitsToNat ip : Int) : Rat)
  | (ip, '.' :: fp) =>
    if fp.all Char.isDigit && !(ip.isEmpty && fp.isEmpty) then
      some (((sgn * (digitsToNat ip * 10 ^ fp.length + digitsToNat fp) : Int) : Rat) /
        ((10 ^ fp.length : Nat) : Rat))
    else none
  | _ => none

/-- Embedding of `_coerce_float`: `None` and booleans fail, numbers
succeed, strings succeed exactly when `float(s)` does.  Returns the
coerced value and the success flag. -/
def _coerce_float : Option Value → Option Rat × Bool
  | none => (none, false)
  | some .vnull => (none, false)
  | some (.vbool _) => (none, false)
  | some (.vnum q) => (some q, true)
  | some (.vstr s) =>
    match pyFloat s with
    | some q => (some q, true)
    | none => (none, false)

/-- Gregorian leap-year rule, as in the host datetime library. -/
def isLeap (y : Nat) : Bool := y % 4 == 0 && (y % 100 != 0 || y % 400 == 0)

/-- Days in a month of a given year. -/
def daysInMonth (y m : Nat) : Nat :=
  if m = 2 then (if isLeap y then 29 else 28)
  else if m = 4 ∨ m = 6 ∨ m = 9 ∨ m = 11 then 30
  else 31

/-- Days in year `y` before month `m`. -/
def daysBeforeMonth (y m : Nat) : Nat :=
  (List.range (m - 1)).foldl (fun acc i => acc + daysInMonth y (i + 1)) 0

/-- Proleptic-Gregorian day number of a calendar date, day 0 being
0001-01-01 (the datetime library counts from 1; the shift is a fixed
offset and cancels in all differences and comparisons). -/
def toOrdinal (y m d : Nat) : Nat :=
  (y - 1) * 365 + (y - 1) / 4 - (y - 1) / 100 + (y - 1) / 400 +
    daysBeforeMonth y m + (d - 1)

/-- Microsecond timestamp of a wall-clock calendar datetime. -/
def dtOfYmdHms (y m d h mi s : Nat) : Nat :=
  (toOrdinal y m d * 86400 + h * 3600 + mi * 60 + s) * usPerSec

/-- Two-digit decimal value. -/
def twoDigits (a b : Char) : Nat := 10 * (a.toNat - 48) + (b.toNat - 48)

/-- Embedding of `time_utils.parse_api_time`:
`datetime.strptime(s, "%Y-%m-%d %H:%M:%S")` on the zero-padded
fixed-width form the feed emits, with the configured zone attached
(wall-clock value unchanged).  Returns `none` where `strptime` or the
datetime constructor raises. -/
def parse_api_time (s : String) : Option Nat :=
  match s.toList with
  | [y1, y2, y3, y4, '-', m1, m2, '-', d1, d2, ' ',
     h1, h2, ':', n1, n2, ':', s1, s2] =>
    if ([y1, y2, y3, y4, m1, m2, d1, d2, h1, h2, n1, n2, s1, s2].all Char.isDigit) then
      let y := digitsToNat [y1, y2, y3, y4]
      let mo := twoDigits m1 m2
      let da := twoDigits d1 d2
      let h := twoDigits h1 h2
      let mi := twoDigits n1 n2
      let se := twoDigits s1 s2
      if 1 ≤ y ∧ 1 ≤ mo ∧ mo ≤ 12 ∧ 1 ≤ da ∧ da ≤ daysInMonth y mo ∧
          h ≤ 23 ∧ mi ≤ 59 ∧ se ≤ 59 then
        some (dtOfYmdHms y mo da h mi se)
      else none
    else none
  | _ => none

/-- The `date` field as handed to `parse_api_time`.  `strptime` requires
a string; a non-string raises `TypeError`, which the caller's broad
`except` treats exactly like a format failure. -/
def parseDateField : Option Value → Option Nat
  | some (.vstr s) => parse_api_time s
  | _ => none

/-- Embedding of `time_utils.infer_timestamp`.  `clock` models the value
`dt.datetime.now(tz)` would produce, used when `now_local` is `None`. -/
def infer_timestamp (last_ts : Option Nat) (now_local : Option Nat)
    (reason_pre : String) (clock : Nat) : Nat × String :=
  match last_ts with
  | some t => (t + 5 * usPerMin, reason_pre ++ "_prev_row")
  | none =>
    let n := now_local.getD clock
    (align_to_5_minute n, reason_pre ++ "_wall_clock")

/-- One appended entry of the `db_insert_errors` diagnostics log, as
produced by `logging_utils.log_db_error` (run timestamp omitted: it is
ambient clock output that no claim touches). -/
structure DbError where
  symbol : String
  operation : String
  errorType : String
  errorMessage : String
  tableName : String
  rowCount : Nat
deriving DecidableEq

/-- Constructor mirroring the keyword interface of `log_db_error`. -/
def log_db_error (symbol operation errorType errorMessage tableName : String)
    (rowCount : Nat) : DbError :=
  ⟨symbol, operation, errorType, errorMessage, tableName, rowCount⟩

/-- Lexicographic byte order on strings, the order `sorted` uses. -/
def charListLe : List Char → List Char → Bool
  | [], _ => true
  | _ :: _, [] => false
  | a :: as, b :: bs => if a = b then charListLe as bs else decide (a < b)

/-- Ordered insertion into a lexicographically sorted list. -/
def insertSorted (x : String) : List String → List String
  | [] => [x]
  | y :: ys => if charListLe x.data y.data then x :: y :: ys else y :: insertSorted x ys

/-- Insertion sort on strings; on duplicate-free input it produces the
same ordered enumeration as the library sort. -/
def sortStrings : List String → List String
  | [] => []
  | x :: xs => insertSorted x (sortStrings xs)

/-- Embedding of `sorted(set(xs))` for strings. -/
def sortedDedup (xs : List String) : List String :=
  sortStrings xs.eraseDups

/-- Result of `_validate_and_parse_row`: the Python function returns the
triple `(timestamp | None, parsed | None, hard_invalid_found)` and as a
side effect appends at most one diagnostics entry, captured in `errors`. -/
structure ValidateResult where
  ts : Option Nat
  parsed : Option (List (String × Option Rat))
  hardInvalid : Bool
  errors : List DbError
deriving DecidableEq

/-- One iteration of the schema/type loop over
`REQUIRED_NUMERIC_FIELDS`: an empty or uncoercible value appends the
field to `invalid_fields`, a coercible one stores the float in
`parsed`. -/
def schemaStep (row : RawRow) (acc : List String × List (String × Option Rat))
    (field : String) : List String × List (String × Option Rat) :=
  let val := rowGet row field
  if is_empty val then (acc.1 ++ [field], acc.2)
  else
    match _coerce_float val with
    | (num, true) => (acc.1, acc.2 ++ [(field, num)])
    | (_, false) => (acc.1 ++ [field], acc.2)

/-- The schema/type enforcement of `_validate_and_parse_row` (source
lines 169-205), shared by the parsed-date and inferred-date paths: check
the required numeric fields, handle `close` specially (empty tolerated
and stored as null), and reject with `SchemaTypeMismatch` when any field
is invalid. -/
def enforce_schema (row : RawRow) (symbol table : String)
    (hard_invalid_found : Bool) (ts_exch : Nat) : ValidateResult :=
  let acc := REQUIRED_NUMERIC_FIELDS.foldl (schemaStep row) ([], [])
  let close_val := rowGet row "close"
  let acc2 :=
    if is_empty close_val then (acc.1, acc.2 ++ [("close", (none : Option Rat))])
    else
      match _coerce_float close_val with
      | (num, true) => (acc.1, acc.2 ++ [("close", num)])
      | (_, false) => (acc.1 ++ ["close"], acc.2)
  if acc2.1.isEmpty then ⟨some ts_exch, some acc2.2, hard_invalid_found, []⟩
  else
    ⟨none, none, true,
      [log_db_error symbol "LOAD" "SchemaTypeMismatch"
        ("invalid fields: " ++ String.intercalate "," (sortedDedup acc2.1))
        table 1]⟩

/-- Embedding of `_validate_and_parse_row`: all-empty check, then
timestamp resolution (inference on an empty date, parse otherwise), then
the shared schema enforcement. -/
def _validate_and_parse_row (row : RawRow) (symbol table : String)
    (hard_invalid_found : Bool) (last_ts : Option Nat)
    (now_local : Option Nat) (clock : Nat) : ValidateResult :=
  let a := analyze_row row DATA_FIELDS
  if a.2 then
    ⟨none, none, true,
      [log_db_error symbol "LOAD" "AllFieldsEmpty" "all fields empty" table 1]⟩
  else
    let ts_str := rowGet row "date"
    if is_empty ts_str then
      if hard_invalid_found then
        ⟨none, none, hard_invalid_found,
          [log_db_error symbol "LOAD" "MissingDate" "date field missing" table 1]⟩
      else
        enforce_schema row symbol table hard_invalid_found
          (infer_timestamp last_ts now_local "date_missing" clock).1
    else
      match parseDateField ts_str with
      | none =>
        ⟨none, none, true,
          [log_db_error symbol "LOAD" "InvalidTimestamp" "invalid timestamp format"
            table 1]⟩
      | some t => enforce_schema row symbol table hard_invalid_found t

/-- A validated bar ready for insertion:
`(timestamp, open, high, low, close, volume)`. -/
abbrev BarRow := Nat × Option Rat × Option Rat × Option Rat × Option Rat × Option Rat

set_option synthInstance.maxSize 1024 in
instance : DecidableEq BarRow := inferInstance

/-- Lookup in the `parsed` dict.  At its call site the lookup is total:
a row reaches it only after validation stored all five keys. -/
def pGet (parsed : List (String × Option Rat)) (k : String) : Option Rat :=
  match parsed.find? (fun p => p.1 == k) with
  | some p => p.2
  | none => none

/-- The loop state of `_process_data_batch`: the hard-invalid flag, the
previous accepted timestamp, the set of timestamps seen (a duplicate-free
list), the accepted rows, and the diagnostics appended so far. -/
structure BatchState where
  hardInvalid : Bool
  lastTs : Option Nat
  seen : List Nat
  rows : List BarRow
  log : List DbError
deriving DecidableEq

/-- The state at the top of the loop in `_process_data_batch`. -/
def initBatchState : BatchState := ⟨false, none, [], [], []⟩

/-- One iteration of the loop in `_process_data_batch`: validate the
row, skip it if no timestamp came back, reject an already-seen timestamp
as `DuplicateTimestamp` (setting the hard-invalid flag), otherwise
accept the row. -/
def stepRow (symbol table : String) (now_local : Option Nat) (clock : Nat)
    (st : BatchState) (row : RawRow) : BatchState :=
  let r := _validate_and_parse_row row symbol table st.hardInvalid st.lastTs
    now_local clock
  let st1 : BatchState :=
    {st with
      hardInvalid := r.hardInvalid
      log := st.log ++ r.errors}
  match r.ts with
  | none => st1
  | some ts_exch =>
    if ts_exch ∈ st1.seen then
      {st1 with
        hardInvalid := true
        log := st1.log ++ [log_db_error symbol "LOAD" "DuplicateTimestamp"
          "duplicate timestamp in batch" table 1]}
    else
      let parsed := r.parsed.getD []
      {st1 with
        seen := st1.seen ++ [ts_exch]
        lastTs := some ts_exch
        rows := st1.rows ++ [(ts_exch, pGet parsed "open", pGet parsed "high",
          pGet parsed "low", pGet parsed "close", pGet parsed "volume")]}

/-- Comparison key of the final sort: ascending timestamp. -/
def tsLe (a b : BarRow) : Bool := decide (a.1 ≤ b.1)

/-- Embedding of `_process_data_batch`: fold the per-row step over the
raw data, then sort the accepted rows ascending by timestamp.  Returns
the rows ready for insertion and the diagnostics log. -/
def _process_data_batch (data : List RawRow) (symbol table : String)
    (now_local : Option Nat) (clock : Nat) : List BarRow × List DbError :=
  let final := data.foldl (stepRow symbol table now_local clock) initBatchState
  (final.rows.mergeSort tsLe, final.log)

/-- Embedding of `db_utils.safe_table_name_for_symbol`: strip
non-alphanumerics, lowercase, prepend the fixed schema; a symbol that
reduces to the empty string raises `ValueError`, modelled as `.error`. -/
def safe_table_name_for_symbol (sym : String) : Except String String :=
  let base := String.mk ((sym.toList.filter Char.isAlphanum).map Char.toLower)
  if base.isEmpty then .error ("Invalid symbol for table mapping: " ++ sym)
  else .ok ("market." ++ base)

/-- The table-naming contract as the spec words it: the fixed schema
plus the symbol stripped of non-alphanumeric characters and
lower-cased. -/
def specTableName (sym : String) : String :=
  "market." ++ String.mk ((sym.toList.filter Char.isAlphanum).map Char.toLower)

/-- An observable event of one iteration of `main`'s per-symbol loop. -/
inductive SymEvent
  | fetchCall (sym : String)
  | tableResolved (table : String)
  | insertCall (table : String) (rowCount : Nat)
  | symFailure
deriving DecidableEq

/-- Event order of `main`'s loop body for one symbol (source lines
446-471): the API fetch is Step 1; the table name is computed in Step 2,
after the fetch; batch processing is Step 3; the insert is Step 4 and is
skipped when no rows survive.  Any exception is caught by the per-symbol
handler and ends that symbol with `symFailure`.  `fetchOutcome`
abstracts the network collaborator; `none` models a fetch that raises. -/
def symbolEvents (sym : String) (fetchOutcome : Option (List RawRow))
    (now_local : Option Nat) (clock : Nat) : List SymEvent :=
  match fetchOutcome with
  | none => [.fetchCall sym, .symFailure]
  | some data =>
    match safe_table_name_for_symbol sym with
    | .error _ => [.fetchCall sym, .symFailure]
    | .ok table =>
      let rows := (_process_data_batch data sym table now_local clock).1
      if rows.isEmpty then [.fetchCall sym, .tableResolved table]
      else [.fetchCall sym, .tableResolved table, .insertCall table rows.length]

/-- Outcome of a whole run of `main`: a fatal `sys.exit`, or a completed
pass over every symbol with the per-symbol outcomes and the row total. -/
inductive RunResult
  | fatalExit (code : Nat)
  | completed (outcomes : List (String × Except String Nat)) (total : Nat)

/-- The per-symbol loop of `main`: each iteration's body runs inside a
`try/except` that logs and moves on, so every symbol is visited and
yields an outcome.  `symResult` abstracts one iteration's body (rows
inserted, or the caught exception). -/
def runSymbols (symResult : String → Except String Nat) :
    List String → List (String × Except String Nat)
  | [] => []
  | s :: rest => (s, symResult s) :: runSymbols symResult rest

/-- The cumulative `total`: successful iterations add their row count,
failed ones add nothing. -/
def runTotal (outcomes : List (String × Except String Nat)) : Nat :=
  outcomes.foldl (fun acc o => acc + (match o.2 with | .ok n => n | .error _ => 0)) 0

/-- Control-flow skeleton of `main`: invalid market-hours config exits
1; a closed market exits 0; a missing API key exits 1; failure to
acquire the store connection exits 2; otherwise the run completes over
all symbols whatever the per-symbol outcomes. -/
def mainRun (hoursValid marketOpen apiKeyPresent : Bool)
    (connect : Except String Unit) (symResult : String → Except String Nat)
    (symbols : List String) : RunResult :=
  if !hoursValid then .fatalExit 1
  else if !marketOpen then .fatalExit 0
  else if !apiKeyPresent then .fatalExit 1
  else
    match connect with
    | .error _ => .fatalExit 2
    | .ok _ =>
      let outcomes := runSymbols symResult symbols
      .completed outcomes (runTotal outcomes)

/-- The schema/type gate as one predicate: every required numeric field
is present and coercible, and `close` is either empty or coercible. -/
def schemaOKb (row : RawRow) : Bool :=
  (REQUIRED_NUMERIC_FIELDS.all
    (fun f => !is_empty (rowGet row f) && (_coerce_float (rowGet row f)).2)) &&
  (is_empty (rowGet row "close") || (_coerce_float (rowGet row "close")).2)

/-- Concrete record with all six fields valid, timestamp 10:05:00. -/
def goodRow1 : RawRow :=
  [("date", .vstr "2026-01-26 10:05:00"), ("open", .vnum 1), ("high", .vnum 2),
   ("low", .vnum 1), ("close", .vnum 2), ("volume", .vnum 10)]

/-- Concrete record whose `date` is in ISO-T form, which the fixed
format does not accept. -/
def badDateRow : RawRow :=
  [("date", .vstr "2026-01-26T10:15:00"), ("open", .vnum 1), ("high", .vnum 2),
   ("low", .vnum 1), ("close", .vnum 2), ("volume", .vnum 11)]

/-- Concrete record with `open` absent and every other field valid. -/
def missingOpenRow : RawRow :=
  [("date", .vstr "2026-01-26 10:10:00"), ("high", .vnum 2),
   ("low", .vnum 1), ("close", .vnum 2), ("volume", .vnum 10)]

/-- Concrete record that repeats the timestamp of `goodRow1` with
different values. -/
def goodRow2 : RawRow :=
  [("date", .vstr "2026-01-26 10:05:00"), ("open", .vnum 5), ("high", .vnum 6),
   ("low", .vnum 4), ("close", .vnum 5), ("volume", .vnum 12)]

/-- Concrete record with no `date` field and valid numeric fields. -/
def noDateRow : RawRow :=
  [("open", .vnum 1), ("high", .vnum 2), ("low", .vnum 1),
   ("close", .vnum 2), ("volume", .vnum 10)]

/-- The batch-processor state after the first `i` records have been
processed. -/
def stateAt (symbol table : String) (now_local : Option Nat) (clock : Nat)
    (data : List RawRow) (i : Nat) : BatchState :=
  (data.take i).foldl (stepRow symbol table now_local clock) initBatchState

/-- The timestamp record `i` resolves to during the run (through parsing
or inference), before the duplicate check; `none` when the record is
rejected by validation or `i` is out of range. -/
def resolvedAt (symbol table : String) (now_local : Option Nat) (clock : Nat)
    (data : List RawRow) (i : Nat) : Option Nat :=
  match data[i]? with
  | none => none
  | some row =>
    (_validate_and_parse_row row symbol table
      (stateAt symbol table now_local clock data i).hardInvalid
      (stateAt symbol table now_local clock data i).lastTs now_local clock).ts

/-- The timestamp under which record `i` is accepted into the batch:
its resolved timestamp when that timestamp has not been seen before. -/
def acceptedAt (symbol table : String) (now_local : Option Nat) (clock : Nat)
    (data : List RawRow) (i : Nat) : Option Nat :=
  match resolvedAt symbol table now_local clock data i with
  | none => none
  | some t => if t ∈ (stateAt symbol table now_local clock data i).seen then none
      else some t

theorem current_hour_eq (t : Nat) :
    current_hour t = usPerHour * (t / usPerHour) := by
  simp only [current_hour, dtMinute, dtSecond, dtMicro, usPerHour, usPerMin, usPerSec]
  omega

theorem truncToMinute_eq (t : Nat) :
    truncToMinute t = usPerMin * (t / usPerMin) := by
  simp only [truncToMinute, dtSecond, dtMicro, usPerMin, usPerSec]
  omega

/-- C2 (amended): for `windowMinutes` that is at least 5 and a multiple
of 5, `compute_window` returns `(start, end)` with `start` on an hour
boundary, `end` on a 5-minute boundary, `end > start`, and
`end - start ≤ windowMinutes`. -/
theorem compute_window_guarantees (now : Nat) (w : Nat)
    (hw5 : 5 ≤ w) (hwm : w % 5 = 0) :
    (compute_window now w).1 % usPerHour = 0 ∧
    (compute_window now w).2 % (5 * usPerMin) = 0 ∧
    (compute_window now w).1 < (compute_window now w).2 ∧
    (compute_window now w).2 - (compute_window now w).1 ≤ w * usPerMin := by
  have hch := current_hour_eq now
  have htm := truncToMinute_eq now
  simp only [compute_window, Nat.min_def, hch, htm, dtMinute,
    usPerHour, usPerMin, usPerSec]
  refine ⟨?_, ?_, ?_, ?_⟩ <;> (repeat' split) <;> omega

/-- Witness: a concrete instantiation of the window guarantees at
`now = 15:27:42` on the second day of the epoch, `windowMinutes = 60`. -/
theorem compute_window_guarantees_witness :
    (5 ≤ 60 ∧ 60 % 5 = 0) ∧
    ((compute_window 142062000000 60).1 % usPerHour = 0 ∧
     (compute_window 142062000000 60).2 % (5 * usPerMin) = 0 ∧
     (compute_window 142062000000 60).1 < (compute_window 142062000000 60).2 ∧
     (compute_window 142062000000 60).2 - (compute_window 142062000000 60).1 ≤
       60 * usPerMin) :=
  ⟨by decide, compute_window_guarantees 142062000000 60 (by decide) (by decide)⟩

/-- C2 counterexample: as stated for every configured `windowMinutes`,
the guarantees fail.  At `now = 15:27:42` with `windowMinutes = 0` the
window length is 5 minutes, exceeding the configured 0; with
`windowMinutes = 7` the end lands on 15:07, not a 5-minute boundary. -/
theorem compute_window_claim_counterexample :
    ¬ ((compute_window 55662000000 0).2 - (compute_window 55662000000 0).1 ≤
        0 * usPerMin) ∧
    ¬ ((compute_window 55662000000 7).2 % (5 * usPerMin) = 0) := by
  decide

theorem validate_hardInvalid_eq (row : RawRow) (symbol table : String)
    (hInv : Bool) (last_ts now_local : Option Nat) (clock : Nat) :
    (_validate_and_parse_row row symbol table hInv last_ts now_local clock).hardInvalid = true ∨
    (_validate_and_parse_row row symbol table hInv last_ts now_local clock).hardInvalid = hInv := by
  simp only [_validate_and_parse_row, enforce_schema]
  (repeat' split) <;> simp

theorem stepRow_hard_mono (symbol table : String) (now_local : Option Nat)
    (clock : Nat) (st : BatchState) (row : RawRow)
    (h : st.hardInvalid = true) :
    (stepRow symbol table now_local clock st row).hardInvalid = true := by
  simp only [stepRow, h]
  rcases validate_hardInvalid_eq row symbol table true st.lastTs now_local clock
    with hv | hv <;> (repeat' split) <;> simp [hv]

/-- C10: the hard-invalid flag is monotone across the batch fold — once
set, it stays set for every subsequent record of the batch. -/
theorem hard_invalid_monotone (symbol table : String) (now_local : Option Nat)
    (clock : Nat) (data : List RawRow) (st : BatchState)
    (h : st.hardInvalid = true) :
    (data.foldl (stepRow symbol table now_local clock) st).hardInvalid = true := by
  induction data generalizing st with
  | nil => simpa using h
  | cons r rest ih =>
    simpa using ih _ (stepRow_hard_mono symbol table now_local clock st r h)

/-- Witness for C10 at a concrete flagged state and a two-record batch. -/
theorem hard_invalid_monotone_witness :
    (BatchState.mk true none [] [] []).hardInvalid = true ∧
    (([goodRow1, noDateRow] : List RawRow).foldl
      (stepRow "AAPL" "market.aapl" none 0)
      (BatchState.mk true none [] [] [])).hardInvalid = true :=
  ⟨rfl, hard_invalid_monotone "AAPL" "market.aapl" none 0 [goodRow1, noDateRow]
    (BatchState.mk true none [] [] []) rfl⟩

/-- C7: a record with all six expected fields missing or empty is
rejected with exactly one `AllFieldsEmpty` diagnostics entry, processing
of the record stops there (hard-invalid set, nothing else changed), and
it contributes zero accepted bars. -/
theorem all_fields_empty_rejected (row : RawRow) (symbol table : String)
    (now_local : Option Nat) (clock : Nat) (st : BatchState)
    (h : ∀ f ∈ DATA_FIELDS, is_empty (rowGet row f) = true) :
    _validate_and_parse_row row symbol table st.hardInvalid st.lastTs now_local clock =
      ⟨none, none, true,
        [log_db_error symbol "LOAD" "AllFieldsEmpty" "all fields empty" table 1]⟩ ∧
    stepRow symbol table now_local clock st row =
      {st with
        hardInvalid := true
        log := st.log ++
          [log_db_error symbol "LOAD" "AllFieldsEmpty" "all fields empty" table 1]} ∧
    (stepRow symbol table now_local clock st row).rows = st.rows := by
  have h1 := h "date" (by simp [DATA_FIELDS])
  have h2 := h "open" (by simp [DATA_FIELDS])
  have h3 := h "high" (by simp [DATA_FIELDS])
  have h4 := h "low" (by simp [DATA_FIELDS])
  have h5 := h "close" (by simp [DATA_FIELDS])
  have h6 := h "volume" (by simp [DATA_FIELDS])
  have hv : _validate_and_parse_row row symbol table st.hardInvalid st.lastTs
      now_local clock =
      ⟨none, none, true,
        [log_db_error symbol "LOAD" "AllFieldsEmpty" "all fields empty" table 1]⟩ := by
    simp [_validate_and_parse_row, analyze_row, DATA_FIELDS, h1, h2, h3, h4, h5, h6]
  refine ⟨hv, ?_, ?_⟩ <;> simp [stepRow, hv]

/-- Witness for C7: the empty record has every expected field absent. -/
theorem all_fields_empty_rejected_witness :
    (∀ f ∈ DATA_FIELDS, is_empty (rowGet ([] : RawRow) f) = true) ∧
    _validate_and_parse_row ([] : RawRow) "AAPL" "market.aapl" false none none 0 =
      ⟨none, none, true,
        [log_db_error "AAPL" "LOAD" "AllFieldsEmpty" "all fields empty" "market.aapl" 1]⟩ :=
  ⟨by decide,
    (all_fields_empty_rejected ([] : RawRow) "AAPL" "market.aapl" none 0
      initBatchState (by decide)).1⟩

theorem analyze_row_not_all_empty (row : RawRow)
    (hne : is_empty (rowGet row "date") = false) :
    (analyze_row row DATA_FIELDS).2 = false := by
  have hfilter : List.filter (fun f => is_empty (rowGet row f))
        ["date", "open", "high", "low", "close", "volume"] =
      List.filter (fun f => is_empty (rowGet row f))
        ["open", "high", "low", "close", "volume"] := by
    simp [List.filter_cons, hne]
  have hle := List.length_filter_le (fun f => is_empty (rowGet row f))
    ["open", "high", "low", "close", "volume"]
  simp only [analyze_row, DATA_FIELDS, hfilter, List.length_cons, List.length_nil,
    beq_eq_false_iff_ne]
  simp only [List.length_cons, List.length_nil] at hle
  omega

/-- C1 (amended): a present `date` value that fails to parse against the
fixed format is always hard-rejected with `InvalidTimestamp`, whether or
not an earlier hard-invalid record has been seen; timestamp inference is
reserved for empty/missing dates. -/
theorem invalid_timestamp_always_rejected (row : RawRow) (symbol table : String)
    (hInv : Bool) (last_ts now_local : Option Nat) (clock : Nat)
    (hne : is_empty (rowGet row "date") = false)
    (hpf : parseDateField (rowGet row "date") = none) :
    _validate_and_parse_row row symbol table hInv last_ts now_local clock =
      ⟨none, none, true,
        [log_db_error symbol "LOAD" "InvalidTimestamp" "invalid timestamp format"
          table 1]⟩ := by
  have hlen := analyze_row_not_all_empty row hne
  simp [_validate_and_parse_row, hlen, hne, hpf]

/-- Witness for C1: the ISO-T dated record is rejected the same way with
the flag clear. -/
theorem invalid_timestamp_always_rejected_witness :
    (is_empty (rowGet badDateRow "date") = false ∧
     parseDateField (rowGet badDateRow "date") = none) ∧
    _validate_and_parse_row badDateRow "AAPL" "market.aapl" false none none 0 =
      ⟨none, none, true,
        [log_db_error "AAPL" "LOAD" "InvalidTimestamp" "invalid timestamp format"
          "market.aapl" 1]⟩ :=
  ⟨⟨by decide, by decide⟩,
    invalid_timestamp_always_rejected badDateRow "AAPL" "market.aapl" false none
      none 0 (by decide) (by decide)⟩

/-- C1 counterexample: with no earlier hard-invalid record in the batch
(`hard_invalid_found = false`), a record whose `date` fails the fixed
format is still rejected outright (no timestamp is resolved and an
`InvalidTimestamp` entry is logged) instead of triggering inference as
the claim states. -/
theorem invalid_timestamp_claim_counterexample :
    (_validate_and_parse_row badDateRow "AAPL" "market.aapl" false none none 0).ts
        = none ∧
    (_validate_and_parse_row badDateRow "AAPL" "market.aapl" false none none
        0).errors.map DbError.errorType = ["InvalidTimestamp"] := by
  decide

theorem schemaStep_ok (row : RawRow)
    (acc : List String × List (String × Option Rat)) (f : String)
    (hf : is_empty (rowGet row f) = false)
    (hc : (_coerce_float (rowGet row f)).2 = true) :
    (schemaStep row acc f).1 = acc.1 := by
  rcases hcf : _coerce_float (rowGet row f) with ⟨num, ok⟩
  rw [hcf] at hc
  simp only at hc
  subst hc
  simp [schemaStep, hf, hcf]

theorem foldl_schemaStep_all_ok (row : RawRow) : ∀ (fs : List String)
    (acc : List String × List (String × Option Rat)),
    (fs.all fun f => !is_empty (rowGet row f) && (_coerce_float (rowGet row f)).2) = true →
    (fs.foldl (schemaStep row) acc).1 = acc.1
  | [], _, _ => rfl
  | f :: rest, acc, h => by
    simp only [List.all_cons, Bool.and_eq_true, Bool.not_eq_true'] at h
    rw [List.foldl_cons,
      foldl_schemaStep_all_ok row rest (schemaStep row acc f)
        (by simp only [List.all_eq_true] at h ⊢
            intro x hx
            have := h.2 x hx
            simpa [Bool.and_eq_true, Bool.not_eq_true'] using this)]
    exact schemaStep_ok row acc f h.1.1 h.1.2

theorem schemaStep_invalid_extend (row : RawRow)
    (acc : List String × List (String × Option Rat)) (f : String) :
    (schemaStep row acc f).1 = acc.1 ∨ (schemaStep row acc f).1 = acc.1 ++ [f] := by
  simp only [schemaStep]
  (repeat' split) <;> simp

theorem foldl_schemaStep_invalid_prefix (row : RawRow) : ∀ (fs : List String)
    (acc : List String × List (String × Option Rat)),
    ∃ ext, (fs.foldl (schemaStep row) acc).1 = acc.1 ++ ext
  | [], acc => ⟨[], by simp⟩
  | f :: rest, acc => by
    obtain ⟨ext, hext⟩ := foldl_schemaStep_invalid_prefix row rest (schemaStep row acc f)
    rw [List.foldl_cons]
    rcases schemaStep_invalid_extend row acc f with h | h
    · exact ⟨ext, by rw [hext, h]⟩
    · exact ⟨f :: ext, by rw [hext, h]; simp⟩

theorem foldl_schemaStep_invalid_ne_nil (row : RawRow) : ∀ (fs : List String)
    (acc : List String × List (String × Option Rat)) (f : String),
    f ∈ fs → is_empty (rowGet row f) = true →
    (fs.foldl (schemaStep row) acc).1 ≠ []
  | g :: rest, acc, f, hf, he => by
    rw [List.foldl_cons]
    rcases List.mem_cons.mp hf with rfl | hmem
    · obtain ⟨ext, hext⟩ := foldl_schemaStep_invalid_prefix row rest (schemaStep row acc f)
      have hstep : (schemaStep row acc f).1 = acc.1 ++ [f] := by
        simp [schemaStep, he]
      rw [hext, hstep]
      simp
    · exact foldl_schemaStep_invalid_ne_nil row rest (schemaStep row acc g) f hmem he

theorem enforce_schema_ok (row : RawRow) (symbol table : String) (hInv : Bool)
    (ts : Nat) (hok : schemaOKb row = true) :
    ∃ p, enforce_schema row symbol table hInv ts = ⟨some ts, some p, hInv, []⟩ := by
  have hreq : (REQUIRED_NUMERIC_FIELDS.all
      fun f => !is_empty (rowGet row f) && (_coerce_float (rowGet row f)).2) = true := by
    simp only [schemaOKb, Bool.and_eq_true] at hok
    exact hok.1
  have hacc := foldl_schemaStep_all_ok row REQUIRED_NUMERIC_FIELDS ([], []) hreq
  by_cases hie : is_empty (rowGet row "close") = true
  · exact ⟨(REQUIRED_NUMERIC_FIELDS.foldl (schemaStep row) ([], [])).2 ++
      [("close", none)], by simp [enforce_schema, hie, hacc]⟩
  · have hcc : (_coerce_float (rowGet row "close")).2 = true := by
      simp only [schemaOKb, Bool.and_eq_true, Bool.or_eq_true] at hok
      rcases hok.2 with h | h
      · exact absurd h hie
      · exact h
    rcases hcf : _coerce_float (rowGet row "close") with ⟨num, ok⟩
    rw [hcf] at hcc
    simp only at hcc
    subst hcc
    exact ⟨(REQUIRED_NUMERIC_FIELDS.foldl (schemaStep row) ([], [])).2 ++
      [("close", num)], by simp [enforce_schema, hie, hacc, hcf]⟩

theorem enforce_schema_mismatch (row : RawRow) (symbol table : String)
    (hInv : Bool) (ts : Nat) (f : String) (hf : f ∈ REQUIRED_NUMERIC_FIELDS)
    (he : is_empty (rowGet row f) = true) :
    ∃ e : DbError, enforce_schema row symbol table hInv ts = ⟨none, none, true, [e]⟩ ∧
      e.errorType = "SchemaTypeMismatch" := by
  have hne := foldl_schemaStep_invalid_ne_nil row REQUIRED_NUMERIC_FIELDS ([], []) f hf he
  simp only [enforce_schema]
  (repeat' split) <;>
    first
      | exact ⟨_, rfl, rfl⟩
      | (exfalso; simp_all [List.isEmpty_iff, List.append_eq_nil])

theorem analyze_row_not_all_empty_mem (row : RawRow) (f : String)
    (hf : f ∈ DATA_FIELDS) (hne : is_empty (rowGet row f) = false) :
    (analyze_row row DATA_FIELDS).2 = false := by
  simp only [analyze_row]
  rw [beq_eq_false_iff_ne]
  intro hlen
  have hsub := List.filter_sublist (p := fun f => is_empty (rowGet row f))
    (l := DATA_FIELDS)
  have heq := hsub.eq_of_length hlen
  have hall := (List.filter_eq_self.mp heq) f hf
  rw [hne] at hall
  exact absurd hall (by simp)

/-- C5: the timestamp inference and ordering policy for empty dates.
With no earlier hard invalid, an empty date is inferred: previous
accepted timestamp plus 5 minutes tagged `<pre>_prev_row` when one
exists, else the wall clock floored to a 5-minute boundary tagged
`<pre>_wall_clock`; once a hard invalid has been seen, an empty date is
rejected outright with `MissingDate`. -/
theorem timestamp_inference_policy (row : RawRow) (symbol table : String)
    (last_ts now_local : Option Nat) (clock t n : Nat) (pre : String)
    (hdate : is_empty (rowGet row "date") = true)
    (hok : schemaOKb row = true) :
    infer_timestamp (some t) now_local pre clock =
      (t + 5 * usPerMin, pre ++ "_prev_row") ∧
    infer_timestamp none (some n) pre clock =
      (align_to_5_minute n, pre ++ "_wall_clock") ∧
    (_validate_and_parse_row row symbol table false last_ts now_local clock).ts =
      some (infer_timestamp last_ts now_local "date_missing" clock).1 ∧
    (_validate_and_parse_row row symbol table false last_ts now_local clock).errors
      = [] ∧
    _validate_and_parse_row row symbol table true last_ts now_local clock =
      ⟨none, none, true,
        [log_db_error symbol "LOAD" "MissingDate" "date field missing" table 1]⟩ := by
  have h1 : (REQUIRED_NUMERIC_FIELDS.all
      fun f => !is_empty (rowGet row f) && (_coerce_float (rowGet row f)).2) = true := by
    simp only [schemaOKb, Bool.and_eq_true] at hok
    exact hok.1
  have hopen : is_empty (rowGet row "open") = false := by
    have h2 := List.all_eq_true.mp h1 "open" (by simp [REQUIRED_NUMERIC_FIELDS])
    simp only [Bool.and_eq_true, Bool.not_eq_true'] at h2
    exact h2.1
  have hnae := analyze_row_not_all_empty_mem row "open" (by simp [DATA_FIELDS]) hopen
  obtain ⟨p, hp⟩ := enforce_schema_ok row symbol table false
    (infer_timestamp last_ts now_local "date_missing" clock).1 hok
  refine ⟨rfl, rfl, ?_, ?_, ?_⟩
  · simp [_validate_and_parse_row, hnae, hdate, hp]
  · simp [_validate_and_parse_row, hnae, hdate, hp]
  · simp [_validate_and_parse_row, hnae, hdate]

/-- Witness for C5 at the concrete date-less record, both with a
previous accepted timestamp and with the hard-invalid flag set. -/
theorem timestamp_inference_policy_witness :
    (is_empty (rowGet noDateRow "date") = true ∧ schemaOKb noDateRow = true) ∧
    (_validate_and_parse_row noDateRow "AAPL" "market.aapl" false (some 600000000)
        none 0).ts = some (600000000 + 5 * usPerMin) ∧
    _validate_and_parse_row noDateRow "AAPL" "market.aapl" true (some 600000000)
        none 0 =
      ⟨none, none, true,
        [log_db_error "AAPL" "LOAD" "MissingDate" "date field missing"
          "market.aapl" 1]⟩ :=
  ⟨⟨by decide, by decide⟩,
    (timestamp_inference_policy noDateRow "AAPL" "market.aapl" (some 600000000)
      none 0 600000000 0 "date_missing" (by decide) (by decide)).2.2.1,
    (timestamp_inference_policy noDateRow "AAPL" "market.aapl" (some 600000000)
      none 0 600000000 0 "date_missing" (by decide) (by decide)).2.2.2.2⟩

/-- C3 (amended): in the validating pipeline a record whose `open`,
`high`, or `low` is absent/empty is not stored with nulls — it is
rejected with `SchemaTypeMismatch` and hard-invalidates the batch; only
`close` is nullable.  (The legacy permissive collector variant stored
such fields as nulls, which is the behavior the claim describes.) -/
theorem missing_ohlc_rejected (row : RawRow) (symbol table : String) (hInv : Bool)
    (last_ts now_local : Option Nat) (clock t : Nat)
    (hne : is_empty (rowGet row "date") = false)
    (hpf : parseDateField (rowGet row "date") = some t)
    (hmiss : is_empty (rowGet row "open") = true ∨
      is_empty (rowGet row "high") = true ∨ is_empty (rowGet row "low") = true) :
    ∃ e : DbError,
      _validate_and_parse_row row symbol table hInv last_ts now_local clock =
        ⟨none, none, true, [e]⟩ ∧ e.errorType = "SchemaTypeMismatch" := by
  have hnae := analyze_row_not_all_empty row hne
  have hfield : ∃ f, f ∈ REQUIRED_NUMERIC_FIELDS ∧ is_empty (rowGet row f) = true := by
    rcases hmiss with h | h | h
    · exact ⟨"open", by simp [REQUIRED_NUMERIC_FIELDS], h⟩
    · exact ⟨"high", by simp [REQUIRED_NUMERIC_FIELDS], h⟩
    · exact ⟨"low", by simp [REQUIRED_NUMERIC_FIELDS], h⟩
  obtain ⟨f, hf, he⟩ := hfield
  obtain ⟨e, he1, he2⟩ := enforce_schema_mismatch row symbol table hInv t f hf he
  exact ⟨e, by simp [_validate_and_parse_row, hnae, hne, hpf, he1], he2⟩

/-- Witness for C3 at the concrete record missing `open`. -/
theorem missing_ohlc_rejected_witness :
    (is_empty (rowGet missingOpenRow "date") = false ∧
     parseDateField (rowGet missingOpenRow "date") =
       some (dtOfYmdHms 2026 1 26 10 10 0) ∧
     is_empty (rowGet missingOpenRow "open") = true) ∧
    ∃ e : DbError,
      _validate_and_parse_row missingOpenRow "AAPL" "market.aapl" false none none 0 =
        ⟨none, none, true, [e]⟩ ∧ e.errorType = "SchemaTypeMismatch" :=
  ⟨⟨by decide, by decide, by decide⟩,
    missing_ohlc_rejected missingOpenRow "AAPL" "market.aapl" false none none 0
      (dtOfYmdHms 2026 1 26 10 10 0) (by decide) (by decide) (Or.inl (by decide))⟩

/-- C3 counterexample: the record missing `open` yields zero stored
bars (it is not "still eligible for storage"); the batch log records a
`SchemaTypeMismatch` rejection instead. -/
theorem optional_ohlc_claim_counterexample :
    (_process_data_batch [missingOpenRow] "AAPL" "market.aapl" none 0).1 = [] ∧
    ((_process_data_batch [missingOpenRow] "AAPL" "market.aapl" none 0).2.map
      DbError.errorType) = ["SchemaTypeMismatch"] := by
  have hfold : ([missingOpenRow] : List RawRow).foldl
      (stepRow "AAPL" "market.aapl" none 0) initBatchState =
      ⟨true, none, [], [],
        [log_db_error "AAPL" "LOAD" "SchemaTypeMismatch" "invalid fields: open"
          "market.aapl" 1]⟩ := by decide
  simp [_process_data_batch, hfold, log_db_error]

/-- C4 (amended): the symbol-to-table mapping is the fixed schema plus
the symbol stripped of non-alphanumerics and lower-cased (`"^TNX"` ↦
`market.tnx`), and a symbol reducing to the empty string is rejected as
a per-symbol configuration error — but only after the fetch call for
that symbol has already been made: in `main`'s loop the fetch is Step 1
and the table-name computation Step 2, so the first observable event for
every symbol, valid or not, is the fetch. -/
theorem table_mapping_and_fetch_order (sym : String) (now_local : Option Nat)
    (clock : Nat) (data : List RawRow)
    (hbase : (String.mk ((sym.toList.filter Char.isAlphanum).map Char.toLower)).isEmpty
      = true) :
    safe_table_name_for_symbol "^TNX" = .ok "market.tnx" ∧
    (∀ s : String,
      (String.mk ((s.toList.filter Char.isAlphanum).map Char.toLower)).isEmpty = false →
      safe_table_name_for_symbol s = .ok (specTableName s)) ∧
    (∃ e, safe_table_name_for_symbol sym = .error e) ∧
    (∀ (s : String) (fo : Option (List RawRow)),
      (symbolEvents s fo now_local clock).head? = some (.fetchCall s)) ∧
    symbolEvents sym (some data) now_local clock = [.fetchCall sym, .symFailure] := by
  have herr : safe_table_name_for_symbol sym =
      .error ("Invalid symbol for table mapping: " ++ sym) := by
    simp only [String.toList] at hbase
    simp [safe_table_name_for_symbol, hbase]
  refine ⟨rfl, ?_, ⟨_, herr⟩, ?_, ?_⟩
  · intro s hs
    simp only [String.toList] at hs
    simp [safe_table_name_for_symbol, specTableName, hs]
  · intro s fo
    cases fo with
    | none => rfl
    | some d =>
      simp only [symbolEvents]
      (repeat' split) <;> rfl
  · simp [symbolEvents, herr]

/-- Witness for C4 at the all-symbols symbol `"$$$"`. -/
theorem table_mapping_and_fetch_order_witness :
    ((String.mk (("$$$".toList.filter Char.isAlphanum).map Char.toLower)).isEmpty
      = true) ∧
    (∃ e, safe_table_name_for_symbol "$$$" = .error e) ∧
    symbolEvents "$$$" (some []) none 0 = [.fetchCall "$$$", .symFailure] :=
  ⟨by decide,
    (table_mapping_and_fetch_order "$$$" none 0 [] (by decide)).2.2.1,
    (table_mapping_and_fetch_order "$$$" none 0 [] (by decide)).2.2.2.2⟩

/-- C4 counterexample: for symbol `"$$$"` the fetch call is the first
event of the loop iteration and the configuration rejection follows it —
the rejection does not happen before the fetch as the claim states. -/
theorem table_rejection_before_fetch_counterexample :
    (symbolEvents "$$$" (some []) none 0).head? = some (.fetchCall "$$$") ∧
    symbolEvents "$$$" (some []) none 0 = [.fetchCall "$$$", .symFailure] :=
  ⟨rfl, rfl⟩

theorem runSymbols_map_fst (f : String → Except String Nat) :
    ∀ syms : List String, (runSymbols f syms).map Prod.fst = syms
  | [] => rfl
  | s :: rest => by simp [runSymbols, runSymbols_map_fst f rest]

/-- C9: once the pre-run checks pass, a per-symbol failure never aborts
the run — the completed run carries an outcome for every configured
symbol in order, whatever `symResult` returns — and the only fatal
condition in the orchestration region is connection-acquisition failure,
which exits with code 2, distinct from the other exit signals (0, 1). -/
theorem orchestrator_error_isolation (hv mo ak : Bool)
    (connect : Except String Unit) (symResult : String → Except String Nat)
    (symbols : List String) (hhv : hv = true) (hmo : mo = true) (hak : ak = true) :
    (∀ e, connect = .error e →
      mainRun hv mo ak connect symResult symbols = .fatalExit 2 ∧
        (2 : Nat) ≠ 0 ∧ (2 : Nat) ≠ 1) ∧
    (connect = .ok () →
      mainRun hv mo ak connect symResult symbols =
        .completed (runSymbols symResult symbols)
          (runTotal (runSymbols symResult symbols)) ∧
      (runSymbols symResult symbols).map Prod.fst = symbols) := by
  subst hhv hmo hak
  constructor
  · intro e he
    subst he
    exact ⟨rfl, by decide, by decide⟩
  · intro hc
    subst hc
    exact ⟨rfl, runSymbols_map_fst symResult symbols⟩

/-- Witness for C9: a refused connection exits 2; with a good connection
a failing symbol (`"$$$"`) does not stop the run and both symbols get an
outcome. -/
theorem orchestrator_error_isolation_witness :
    mainRun true true true (.error "refused") (fun _ => .ok 0) ["AAPL"] =
      .fatalExit 2 ∧
    (mainRun true true true (.ok ())
        (fun s => if s = "$$$" then .error "boom" else .ok 3) ["AAPL", "$$$"] =
      .completed
        (runSymbols (fun s => if s = "$$$" then .error "boom" else .ok 3)
          ["AAPL", "$$$"])
        (runTotal (runSymbols (fun s => if s = "$$$" then .error "boom" else .ok 3)
          ["AAPL", "$$$"])) ∧
      (runSymbols (fun s => if s = "$$$" then .error "boom" else .ok 3)
        ["AAPL", "$$$"]).map Prod.fst = ["AAPL", "$$$"]) :=
  ⟨((orchestrator_error_isolation true true true (.error "refused")
      (fun _ => .ok 0) ["AAPL"] rfl rfl rfl).1 "refused" rfl).1,
   (orchestrator_error_isolation true true true (.ok ())
      (fun s => if s = "$$$" then .error "boom" else .ok 3) ["AAPL", "$$$"]
      rfl rfl rfl).2 rfl⟩

/-- C8: the Batch Assembler's output is sorted ascending by timestamp,
and re-sorting an already-assembled batch is a fixed point. -/
theorem batch_assembler_sorted_fixed_point (data : List RawRow)
    (symbol table : String) (now_local : Option Nat) (clock : Nat) :
    ((_process_data_batch data symbol table now_local clock).1).Pairwise
      (fun a b : BarRow => a.1 ≤ b.1) ∧
    ((_process_data_batch data symbol table now_local clock).1).mergeSort tsLe =
      (_process_data_batch data symbol table now_local clock).1 := by
  have htrans : ∀ a b c : BarRow, tsLe a b → tsLe b c → tsLe a c := by
    intro a b c hab hbc
    simp only [tsLe, decide_eq_true_eq] at hab hbc ⊢
    omega
  have htotal : ∀ a b : BarRow, tsLe a b || tsLe b a := by
    intro a b
    simp only [tsLe, Bool.or_eq_true, decide_eq_true_eq]
    omega
  have hsorted := List.sorted_mergeSort htrans htotal
    ((data.foldl (stepRow symbol table now_local clock) initBatchState).rows)
  constructor
  · simp only [_process_data_batch]
    exact hsorted.imp (by intro a b h; simpa [tsLe] using h)
  · simp only [_process_data_batch]
    exact List.mergeSort_of_sorted hsorted

theorem stateAt_succ (symbol table : String) (now_local : Option Nat)
    (clock : Nat) (data : List RawRow) (k : Nat) (hk : k < data.length) :
    stateAt symbol table now_local clock data (k + 1) =
      stepRow symbol table now_local clock
        (stateAt symbol table now_local clock data k) data[k] := by
  simp only [stateAt, List.take_succ, List.getElem?_eq_getElem hk,
    Option.toList_some, List.foldl_append, List.foldl_cons, List.foldl_nil]

theorem stateAt_stable (symbol table : String) (now_local : Option Nat)
    (clock : Nat) (data : List RawRow) (k : Nat) (hk : data.length ≤ k) :
    stateAt symbol table now_local clock data (k + 1) =
      stateAt symbol table now_local clock data k := by
  simp only [stateAt, List.take_of_length_le hk,
    List.take_of_length_le (Nat.le_succ_of_le hk)]

theorem stepRow_seen_mono (symbol table : String) (now_local : Option Nat)
    (clock : Nat) (st : BatchState) (row : RawRow) (x : Nat)
    (hx : x ∈ st.seen) :
    x ∈ (stepRow symbol table now_local clock st row).seen := by
  simp only [stepRow]
  (repeat' split) <;> simp [hx]

theorem stateAt_seen_mono (symbol table : String) (now_local : Option Nat)
    (clock : Nat) (data : List RawRow) (i : Nat) (x : Nat) :
    ∀ j, i ≤ j → x ∈ (stateAt symbol table now_local clock data i).seen →
      x ∈ (stateAt symbol table now_local clock data j).seen := by
  intro j
  induction j with
  | zero =>
    intro hij hx
    have : i = 0 := Nat.le_zero.mp hij
    simpa [this] using hx
  | succ j ih =>
    intro hij hx
    rcases Nat.eq_or_lt_of_le hij with rfl | hlt
    · exact hx
    · have hxj := ih (Nat.lt_succ_iff.mp hlt) hx
      by_cases hk : j < data.length
      · rw [stateAt_succ symbol table now_local clock data j hk]
        exact stepRow_seen_mono symbol table now_local clock _ _ x hxj
      · rw [stateAt_stable symbol table now_local clock data j (Nat.le_of_not_lt hk)]
        exact hxj

theorem validate_ts_some (row : RawRow) (symbol table : String) (hInv : Bool)
    (last_ts now_local : Option Nat) (clock t : Nat)
    (h : (_validate_and_parse_row row symbol table hInv last_ts now_local clock).ts
      = some t) :
    (_validate_and_parse_row row symbol table hInv last_ts now_local clock).errors
      = [] ∧
    (_validate_and_parse_row row symbol table hInv last_ts now_local clock).hardInvalid
      = hInv := by
  revert h
  simp only [_validate_and_parse_row, enforce_schema]
  (repeat' split) <;> (intro h; simp_all)

theorem stepRow_nodup_invariant (symbol table : String) (now_local : Option Nat)
    (clock : Nat) (st : BatchState) (row : RawRow)
    (h1 : (st.rows.map (fun r => r.1)).Nodup)
    (h2 : ∀ x ∈ st.rows.map (fun r => r.1), x ∈ st.seen) :
    ((stepRow symbol table now_local clock st row).rows.map (fun r => r.1)).Nodup ∧
    (∀ x ∈ (stepRow symbol table now_local clock st row).rows.map (fun r => r.1),
      x ∈ (stepRow symbol table now_local clock st row).seen) := by
  simp only [stepRow]
  split
  · exact ⟨h1, h2⟩
  · rename_i ts heq
    split
    · exact ⟨h1, h2⟩
    · rename_i hnot
      constructor
      · simp only [List.map_append, List.map_cons, List.map_nil, List.nodup_append]
        refine ⟨h1, by simp, ?_⟩
        intro x hx hx2
        simp only [List.mem_cons, List.not_mem_nil, or_false] at hx2
        subst hx2
        exact hnot (h2 _ hx)
      · intro x hx
        simp only [List.map_append, List.map_cons, List.map_nil,
          List.mem_append, List.mem_cons, List.not_mem_nil, or_false] at hx
        rcases hx with hx | hx
        · exact List.mem_append_left _ (h2 _ hx)
        · subst hx
          exact List.mem_append_right _ (by simp)

theorem foldl_nodup_invariant (symbol table : String) (now_local : Option Nat)
    (clock : Nat) : ∀ (data : List RawRow) (st : BatchState),
    (st.rows.map (fun r => r.1)).Nodup →
    (∀ x ∈ st.rows.map (fun r => r.1), x ∈ st.seen) →
    (((data.foldl (stepRow symbol table now_local clock) st)).rows.map
      (fun r => r.1)).Nodup
  | [], _, hn, _ => hn
  | row :: rest, st, hn, hs => by
    obtain ⟨h1, h2⟩ := stepRow_nodup_invariant symbol table now_local clock st row hn hs
    simpa using foldl_nodup_invariant symbol table now_local clock rest _ h1 h2

/-- C6: duplicate detection is first-wins.  If record `i` was accepted
under timestamp `t` and a later record `j` resolves to the same `t`,
then record `j` is rejected: the rows are unchanged at step `j`, exactly
one `DuplicateTimestamp` entry is appended to the log, the hard-invalid
flag is set (affecting the inference policy of all subsequent records),
and the assembled batch never carries two rows with one timestamp. -/
theorem duplicate_first_wins (symbol table : String) (now_local : Option Nat)
    (clock : Nat) (data : List RawRow) (i j t : Nat)
    (hij : i < j) (hjlen : j < data.length)
    (hacc : acceptedAt symbol table now_local clock data i = some t)
    (hres : resolvedAt symbol table now_local clock data j = some t) :
    (stateAt symbol table now_local clock data (j + 1)).rows =
      (stateAt symbol table now_local clock data j).rows ∧
    (stateAt symbol table now_local clock data (j + 1)).log =
      (stateAt symbol table now_local clock data j).log ++
        [log_db_error symbol "LOAD" "DuplicateTimestamp"
          "duplicate timestamp in batch" table 1] ∧
    (stateAt symbol table now_local clock data (j + 1)).hardInvalid = true ∧
    ((_process_data_batch data symbol table now_local clock).1.map
      (fun r => r.1)).Nodup := by
  have hilen : i < data.length := by
    by_contra hcon
    have hnone : data[i]? = none := List.getElem?_eq_none (Nat.le_of_not_lt hcon)
    unfold acceptedAt resolvedAt at hacc
    rw [hnone] at hacc
    simp at hacc
  obtain ⟨hresi, hnotin⟩ : resolvedAt symbol table now_local clock data i = some t ∧
      t ∉ (stateAt symbol table now_local clock data i).seen := by
    unfold acceptedAt at hacc
    rcases hri : resolvedAt symbol table now_local clock data i with _ | ti
    · rw [hri] at hacc
      simp at hacc
    · rw [hri] at hacc
      by_cases hmem : ti ∈ (stateAt symbol table now_local clock data i).seen
      · simp [hmem] at hacc
      · simp [hmem] at hacc
        subst hacc
        exact ⟨rfl, hmem⟩
  have hrowi : data[i]? = some data[i] := List.getElem?_eq_getElem hilen
  have hvi : (_validate_and_parse_row data[i] symbol table
      (stateAt symbol table now_local clock data i).hardInvalid
      (stateAt symbol table now_local clock data i).lastTs now_local clock).ts
      = some t := by
    unfold resolvedAt at hresi
    rw [hrowi] at hresi
    exact hresi
  have hseen1 : t ∈ (stateAt symbol table now_local clock data (i + 1)).seen := by
    rw [stateAt_succ symbol table now_local clock data i hilen]
    simp [stepRow, hvi, hnotin]
  have hseenj : t ∈ (stateAt symbol table now_local clock data j).seen :=
    stateAt_seen_mono symbol table now_local clock data (i + 1) t j hij hseen1
  have hrowj : data[j]? = some data[j] := List.getElem?_eq_getElem hjlen
  have hvj : (_validate_and_parse_row data[j] symbol table
      (stateAt symbol table now_local clock data j).hardInvalid
      (stateAt symbol table now_local clock data j).lastTs now_local clock).ts
      = some t := by
    unfold resolvedAt at hres
    rw [hrowj] at hres
    exact hres
  have herrj := validate_ts_some data[j] symbol table
    (stateAt symbol table now_local clock data j).hardInvalid
    (stateAt symbol table now_local clock data j).lastTs now_local clock t hvj
  have hstep : stateAt symbol table now_local clock data (j + 1) =
      ⟨true, (stateAt symbol table now_local clock data j).lastTs,
        (stateAt symbol table now_local clock data j).seen,
        (stateAt symbol table now_local clock data j).rows,
        (stateAt symbol table now_local clock data j).log ++
          [log_db_error symbol "LOAD" "DuplicateTimestamp"
            "duplicate timestamp in batch" table 1]⟩ := by
    rw [stateAt_succ symbol table now_local clock data j hjlen]
    simp [stepRow, hvj, hseenj, herrj.1]
  refine ⟨by rw [hstep], by rw [hstep], by rw [hstep], ?_⟩
  have hnodup := foldl_nodup_invariant symbol table now_local clock data
    initBatchState (by simp [initBatchState]) (by simp [initBatchState])
  have hperm : List.Perm (_process_data_batch data symbol table now_local clock).1
      ((data.foldl (stepRow symbol table now_local clock) initBatchState).rows) := by
    simp only [_process_data_batch]
    exact List.mergeSort_perm _ _
  exact ((hperm.map (fun r => r.1)).nodup_iff).mpr hnodup

/-- Witness for C6 at a concrete two-record batch sharing one
timestamp. -/
theorem duplicate_first_wins_witness :
    (acceptedAt "AAPL" "market.aapl" none 0 [goodRow1, goodRow2] 0 =
        some (dtOfYmdHms 2026 1 26 10 5 0) ∧
     resolvedAt "AAPL" "market.aapl" none 0 [goodRow1, goodRow2] 1 =
        some (dtOfYmdHms 2026 1 26 10 5 0)) ∧
    (stateAt "AAPL" "market.aapl" none 0 [goodRow1, goodRow2] 2).hardInvalid
      = true :=
  ⟨⟨by decide, by decide⟩,
    (duplicate_first_wins "AAPL" "market.aapl" none 0 [goodRow1, goodRow2] 0 1
      (dtOfYmdHms 2026 1 26 10 5 0) (by decide) (by decide) (by decide)
      (by decide)).2.2.1⟩

end Ingest
